import Mathlib

/-!
# Verification of the streaming transcript/translation pipeline (`server/main.py`)

This file gives a shallow embedding, in Lean 4, of the core of the live
translation server:

* Python string primitives used by the pipeline (`strip`, `split`,
  `startswith`, `in`, negative slicing) modelled over `List Char` / `String`;
* the sentence segmenter `_extract_complete_sentences` (regex split on
  `([.!?؟]+)` followed by the pairing `while` loop);
* the transcript accumulator state machine of `_forward_transcription`
  (final-transcript branch): duplicate suppression, the four-way merge
  policy, segmentation, and debounce rescheduling;
* the debounce scheduler formed by `pending_translation_task` and
  `_delayed_translation` (asyncio tasks modelled as timers with a
  `cancelled` flag);
* `Translator.translate`, `_maintain_context_window`, `_rebuild_context`
  and its rolling message history (the external LLM stream is an explicit
  input: either a list of stream chunks or a failure);
* the dispatcher `_translate_sentences` (tasks gathered with
  `return_exceptions=True`);
* the display broadcast registry `broadcast_to_displays`.

Theorems at the end of the file settle the specification claims against
these definitions.
-/

/-! ## Python string primitives -/
/-- Whitespace characters stripped by Python's `str.strip()` (ASCII range). -/
def isPyWhitespace (c : Char) : Bool :=
  c = ' ' || c = '\t' || c = '\n' || c = '\r' || c = '\x0b' || c = '\x0c'

/-- `str.strip()` on a character list: drop leading and trailing whitespace. -/
def pyStripList (cs : List Char) : List Char :=
  ((cs.dropWhile isPyWhitespace).reverse.dropWhile isPyWhitespace).reverse

/-- Python `s.strip()`. -/
def pyStrip (s : String) : String :=
  String.mk (pyStripList s.toList)

/-- Python `s.startswith(p)`. -/
def pyStartswith (s p : String) : Bool :=
  p.toList.isPrefixOf s.toList

/-- Python substring containment `a in b`. -/
def pyIn (a b : String) : Bool :=
  b.toList.tails.any (fun t => a.toList.isPrefixOf t)

/-- Helper for `str.split()`: the words of a character list, splitting on
runs of whitespace and dropping empty pieces.  A non-whitespace character
joins the first word of the tail's split exactly when the tail starts with
a non-whitespace character; otherwise it opens a new word. -/
def pyWordsAux : List Char → List (List Char)
  | [] => []
  | c :: cs =>
    if isPyWhitespace c then pyWordsAux cs
    else
      match pyWordsAux cs, cs with
      | w :: ws, d :: _ => if isPyWhitespace d then [c] :: w :: ws else (c :: w) :: ws
      | _, _ => [[c]]

/-- Python `s.split()` (whitespace split, no empty pieces). -/
def pyWords (s : String) : List String :=
  (pyWordsAux s.toList).map String.mk

/-- Python slice `l[-m:]` for a nonnegative `m`.  Note the Python quirk:
`-0 = 0`, so `l[-0:]` is the whole list, not the empty list. -/
def pyTakeLast (m : Nat) (l : List α) : List α :=
  if m = 0 then l else l.drop (l.length - m)

example : pyStrip "  hi there\n" = "hi there" := by decide

example : pyWords "foo  bar" = ["foo", "bar"] := by decide

example : (pyWords "single").length = 1 := by decide

example : pyStartswith "hello world" "hello" = true := by decide

example : pyIn "lo wo" "hello world" = true := by decide

example : pyTakeLast 0 [1, 2, 3] = [1, 2, 3] := by decide

example : pyTakeLast 2 [1, 2, 3] = [2, 3] := by decide

/-! ## Sentence segmenter: `_extract_complete_sentences` (main.py:342-368) -/
/-- The sentence-boundary characters of the pattern `r'([.!?؟]+)'`
(main.py:349).  Note: newline is *not* among them. -/
def isBoundaryChar (c : Char) : Bool :=
  c = '.' || c = '!' || c = '?' || c = '؟'

/-- `re.split(r'([.!?؟]+)', text)` (main.py:350): the text is cut into an
alternating list `[text₀, sep₁, text₁, sep₂, …, textₙ]` where each `sepᵢ` is
a maximal nonempty run of boundary characters (the captured group, kept in
the result) and the `textᵢ` are the possibly-empty stretches between them.
The recursion builds the parts from the right: a boundary character either
extends a boundary run that starts immediately (empty leading text part) or
opens a new run; any other character is prepended to the leading text part.
`reSplitBoundary_flatten` and `reSplitBoundary_alt` below check this against
the `re.split` contract. -/
def reSplitBoundary : List Char → List (List Char)
  | [] => [[]]
  | c :: cs =>
    if isBoundaryChar c then
      match reSplitBoundary cs with
      | [] :: b :: rest => [] :: (c :: b) :: rest
      | parts => [] :: [c] :: parts
    else
      match reSplitBoundary cs with
      | t :: rest => (c :: t) :: rest
      | [] => [[c]]

/-- The anchored test `re.match(r'[.!?؟]+', part)` (main.py:357): succeeds
exactly when the part starts with a boundary character. -/
def startsWithBoundary : List Char → Bool
  | c :: _ => isBoundaryChar c
  | [] => false

/-- The pairing `while` loop of `_extract_complete_sentences`
(main.py:355-366): walk the parts two at a time; a text part followed by a
boundary run (the `re.match(r'[.!?؟]+', parts[i+1])` test) forms a complete
sentence, stripped and kept when nonempty; the first part not followed by a
boundary run is stripped and becomes the remaining text (and the loop
breaks). -/
def sentenceLoop : List (List Char) → List String × String
  | [] => ([], "")
  | [p] => ([], String.mk (pyStripList p))
  | p0 :: p1 :: rest =>
    if startsWithBoundary p1 then
      let sentence := String.mk (pyStripList (p0 ++ p1))
      let r := sentenceLoop rest
      (if sentence ≠ "" then sentence :: r.1 else r.1, r.2)
    else
      ([], String.mk (pyStripList p0))

/-- `_extract_complete_sentences(text)` (main.py:342-368): returns the
complete sentences found in `text` together with the remaining incomplete
text. -/
def extract_complete_sentences (text : String) : List String × String :=
  if pyStrip text = "" then ([], "")
  else sentenceLoop (reSplitBoundary text.toList)

example : extract_complete_sentences "Hello world. How are" = (["Hello world."], "How are") := by decide

example : extract_complete_sentences "a.b!c" = (["a.", "b!"], "c") := by decide

example : extract_complete_sentences "hi\nthere" = ([], "hi\nthere") := by decide

example : extract_complete_sentences "  " = ([], "") := by decide

example : extract_complete_sentences "كيف حالك؟" = (["كيف حالك؟"], "") := by decide

/-- `True` of a string whose last character is a sentence-boundary
character (boundary characters are retained at the end of a complete
sentence). -/
def endsWithBoundary (s : String) : Bool :=
  match s.toList.getLast? with
  | some c => isBoundaryChar c
  | none => false

/-- `True` of a string containing no sentence-boundary character. -/
def hasNoBoundary (s : String) : Bool :=
  s.toList.all (fun c => !isBoundaryChar c)

/-- The shape contract of `re.split` with a captured group: parts alternate
between boundary-free stretches and nonempty runs of boundary
characters. -/
def altParts : List (List Char) → Bool
  | [] => true
  | [t] => t.all (fun c => !isBoundaryChar c)
  | t :: b :: rest =>
    t.all (fun c => !isBoundaryChar c) && !b.isEmpty && b.all isBoundaryChar && altParts rest

/-! ## Translator: rolling context and the external LLM call (main.py:117-278)

A history entry is a `(role, content)` pair, exactly as in
`self.message_history` (main.py:124).  The mutable external settings
consulted on every call (`settings.llm.context_enabled`,
`settings.llm.context_sentences`, main.py:176-185) are modelled by
`ContextPolicy`; a failing settings read falls back to the defaults, which
is just another policy value. -/
/-- The LLM context settings consulted before each translation. -/
structure ContextPolicy where
  enabled : Bool
  maxPairs : Nat
deriving Repr, DecidableEq

/-- The default system message of a translator (main.py:144-148), with the
language code substituted. -/
def default_system_message (lang : String) : String × String :=
  ("system",
    "You are a translator for language: " ++ lang ++ ". " ++
    "Your only response should be the exact translation of input text in the " ++
    lang ++ " language.")

/-- `Translator._rebuild_context` (main.py:156-168): the chat context is the
system message followed by the conversation messages, in order. -/
def rebuild_context (system_message : String × String)
    (message_history : List (String × String)) : List (String × String) :=
  system_message :: message_history

/-- `Translator._maintain_context_window` (main.py:170-208): with context
disabled the history is cleared; otherwise, when the history exceeds
`context_sentences * 2` messages it is cut to the Python slice
`message_history[-max_conversation_messages:]` (note the `[-0:]` quirk
captured by `pyTakeLast`). -/
def maintain_context_window (policy : ContextPolicy)
    (message_history : List (String × String)) : List (String × String) :=
  if !policy.enabled then []
  else if message_history.length > 2 * policy.maxPairs then
    pyTakeLast (2 * policy.maxPairs) message_history
  else message_history

/-- One chunk of the LLM response stream (main.py:237-243): `none` models a
chunk with `delta is None` (skipped), `some none` a chunk with
`delta.content is None` (the loop breaks), and `some (some s)` a content
fragment that is appended. -/
def LLMChunk := Option (Option String)

/-- The stream-concatenation loop of `Translator.translate`
(main.py:236-243). -/
def collect_stream (acc : String) : List LLMChunk → String
  | [] => acc
  | none :: rest => collect_stream acc rest
  | some none :: _ => acc
  | some (some s) :: rest => collect_stream (acc ++ s) rest

/-- Everything observable about one successful `Translator.translate` call:
the request handed to the external LLM, the text of the single published
transcription segment, and the message history left behind. -/
structure TranslateResult where
  request : List (String × String)
  published : String
  history : List (String × String)
deriving Repr, DecidableEq

/-- The success path of `Translator.translate` (main.py:210-278):
append `("user", message)` to the history; run `_maintain_context_window`;
run `_rebuild_context` (the request sent to `self.llm.chat`); concatenate
the streamed chunks; append `("assistant", result)`; run
`_maintain_context_window` again; publish exactly one segment carrying the
concatenated result. -/
def translate_ok (system_message : String × String) (policy : ContextPolicy)
    (message_history : List (String × String)) (message : String)
    (chunks : List LLMChunk) : TranslateResult :=
  let h1 := message_history ++ [("user", message)]
  let h2 := maintain_context_window policy h1
  let request := rebuild_context system_message h2
  let translated_message := collect_stream "" chunks
  let h3 := h2 ++ [("assistant", translated_message)]
  let h4 := maintain_context_window policy h3
  { request := request, published := translated_message, history := h4 }

/-- `Translator.translate` with the external call's outcome made explicit:
`Except.error` models the LLM call (or its stream) raising.  There is no
`try/except` around the call in `translate` (main.py:235-243), so the
exception propagates to the caller and the publish step is never reached —
but the user turn was already appended and the context window already
trimmed (main.py:227-230) before the call, with no cleanup on failure, so
the error carries the history the failed call leaves behind. -/
def translate_run (system_message : String × String) (policy : ContextPolicy)
    (message_history : List (String × String)) (message : String)
    (outcome : Except String (List LLMChunk)) :
    Except (String × List (String × String)) TranslateResult :=
  match outcome with
  | Except.error e =>
    Except.error (e, maintain_context_window policy (message_history ++ [("user", message)]))
  | Except.ok chunks => Except.ok (translate_ok system_message policy message_history message chunks)

/-- The texts published by one `translate` call: one segment on success,
none when the call raises. -/
def published_units (r : Except (String × List (String × String)) TranslateResult) :
    List String :=
  match r with
  | Except.ok t => [t.published]
  | Except.error _ => []

/-- One `translate` call as the translator experiences it: the policy read
from settings at that moment, the input message, and the external call's
outcome (which may be a failure). -/
def TranslateCall : Type := ContextPolicy × String × Except String (List LLMChunk)

/-- The message history after one `translate` call, completed or failed: a
successful call leaves `translate_ok`'s history; a failed call leaves the
history its raise abandoned (the translator object survives, because the
dispatcher gathers with `return_exceptions=True`, main.py:388). -/
def history_after_call (system_message : String × String)
    (message_history : List (String × String)) (c : TranslateCall) :
    List (String × String) :=
  match translate_run system_message c.1 message_history c.2.1 c.2.2 with
  | Except.ok r => r.history
  | Except.error e => e.2

/-- A sequence of `translate` calls — some possibly failing — against one
translator, starting from the empty history of a fresh translator
(main.py:124). -/
def run_translator_calls (system_message : String × String)
    (calls : List TranslateCall) : List (String × String) :=
  calls.foldl (history_after_call system_message) []

/-- A history made of whole `(user, assistant)` pairs, user turn first. -/
def isPairList : List (String × String) → Bool
  | [] => true
  | (r1, _) :: (r2, _) :: rest => r1 = "user" && r2 = "assistant" && isPairList rest
  | [_] => false

example :
    (translate_ok (default_system_message "nl") ⟨true, 10⟩ [] "مرحبا"
      [some (some "hal"), none, some (some "lo")]).published = "hallo" := by decide

example :
    (translate_ok (default_system_message "nl") ⟨true, 10⟩ [] "مرحبا"
      [some (some "ha"), some none, some (some "llo")]).published = "ha" := by decide

example :
    (translate_ok (default_system_message "nl") ⟨false, 10⟩ [] "مرحبا" []).request
      = [default_system_message "nl"] := by decide

example :
    (translate_ok (default_system_message "nl") ⟨true, 0⟩ [] "مرحبا" []).history
      = [("user", "مرحبا"), ("assistant", "")] := by decide

/-! ## Transcript accumulator: the FINAL_TRANSCRIPT branch of
`_forward_transcription` (main.py:437-536)

The per-session mutable state consists of `accumulated_text`,
`last_final_transcript` and `pending_translation_task` (main.py:331-334).
The pending debounce task is modelled here by the text it would translate
(`none` = no pending task); the timer mechanics themselves are modelled
separately below. -/
/-- Per-session accumulator state (main.py:331-334). -/
structure SessionState where
  accumulated_text : String
  last_final_transcript : String
  pending_translation : Option String
deriving Repr, DecidableEq

/-- What one final-transcript event produces: the final transcription
published for the source language (if any), and the sentence units handed
synchronously to `_translate_sentences`, in call order. -/
structure SessionOutput where
  publishedFinal : Option String
  units : List String
deriving Repr, DecidableEq

/-- The merge policy applied to a non-empty buffer (main.py:471-491):
extension (`startswith`), containment (`in`), single-word continuation, or
an unrelated utterance.  In the unrelated case the old buffer is flushed:
its complete sentences are sent for translation, while the translation of
the leftover incomplete remainder is commented out in the source
(main.py:488-490), so that remainder is dropped.  Returns the new buffer
and the units emitted by the flush. -/
def merge_accumulated (accumulated_text final_text : String) : String × List String :=
  if accumulated_text ≠ "" then
    if pyStartswith final_text (pyStrip accumulated_text) then
      (final_text, [])
    else if pyIn (pyStrip accumulated_text) final_text then
      (final_text, [])
    else if (pyWords final_text).length = 1 ∧ 1 ≤ (pyWords accumulated_text).length then
      (pyStrip accumulated_text ++ " " ++ final_text, [])
    else
      (final_text,
        if pyStrip accumulated_text ≠ "" then (extract_complete_sentences accumulated_text).1
        else [])
  else (final_text, [])

/-- The FINAL_TRANSCRIPT branch of `_forward_transcription`
(main.py:437-536).  `hasTranslators` is the `if translators:` test
(main.py:469).  Empty or duplicate transcripts are skipped (main.py:443);
otherwise the final transcription is published, the merge policy is
applied, complete sentences of the merged buffer are emitted (and the
buffer reduced to the remainder), and the debounce task is rescheduled on
the remaining incomplete text or cancelled (main.py:497-532; the pending
task always ends up as the new delayed task on the remaining text, or
`None`). -/
def forward_final_transcript (st : SessionState) (hasTranslators : Bool)
    (raw : String) : SessionState × SessionOutput :=
  let final_text := pyStrip raw
  if final_text ≠ "" ∧ final_text ≠ st.last_final_transcript then
    if hasTranslators then
      let m := merge_accumulated st.accumulated_text final_text
      let e := extract_complete_sentences m.1
      let acc2 := if e.1 ≠ [] then e.2 else m.1
      let stFinal : SessionState :=
        { accumulated_text := acc2
          last_final_transcript := final_text
          pending_translation := if pyStrip acc2 ≠ "" then some acc2 else none }
      (stFinal, { publishedFinal := some final_text, units := m.2 ++ e.1 })
    else
      ({ st with last_final_transcript := final_text },
        { publishedFinal := some final_text, units := [] })
  else
    (st, { publishedFinal := none, units := [] })

example :
    forward_final_transcript ⟨"", "", none⟩ true "Hello world." =
      (⟨"", "Hello world.", none⟩, ⟨some "Hello world.", ["Hello world."]⟩) := by decide

example :
    forward_final_transcript ⟨"Hello", "Hello", none⟩ true "Hello world" =
      (⟨"Hello world", "Hello world", some "Hello world"⟩,
        ⟨some "Hello world", []⟩) := by decide

example :
    forward_final_transcript ⟨"foo bar", "", none⟩ true "baz qux" =
      (⟨"baz qux", "baz qux", some "baz qux"⟩, ⟨some "baz qux", []⟩) := by decide

/-! ## Dispatcher: `_translate_sentences` (main.py:370-388)

Each translator's `translate` coroutine is modelled as a function from the
sentence to `Except` (failure = the coroutine raising).  The tasks built
for one sentence are gathered with `return_exceptions=True`
(main.py:388), which collects every task's result — exceptions included —
instead of aborting the siblings. -/
/-- The `translation_tasks` list built for one sentence (main.py:381-384):
one pending coroutine per registered translator. -/
def build_translation_tasks (translators : List (String × (String → Except String String)))
    (sentence : String) : List (Unit → Except String String) :=
  translators.map (fun lt => fun _ => lt.2 sentence)

/-- `asyncio.gather(*tasks, return_exceptions=True)` (main.py:388): run
every task to completion and collect each result, errors in place. -/
def gather_return_exceptions (tasks : List (Unit → Except String String)) :
    List (Except String String) :=
  tasks.map (fun t => t ())

/-- `_translate_sentences(sentences)` (main.py:370-388): no-op when there
are no sentences or no translators; otherwise, for every sentence with
non-empty strip, fan out to all registered translators and gather all
results.  Returns, per dispatched sentence, the per-translator results. -/
def translate_sentences (translators : List (String × (String → Except String String)))
    (sentences : List String) : List (List (Except String String)) :=
  if sentences.isEmpty || translators.isEmpty then []
  else
    sentences.filterMap (fun sentence =>
      if pyStrip sentence ≠ "" then
        some (gather_return_exceptions (build_translation_tasks translators sentence))
      else none)

/-! ## Debounce scheduler: `pending_translation_task` and
`_delayed_translation` (main.py:390-403, 516-532)

An asyncio task created by `asyncio.create_task(_delayed_translation(text,
delay))` is modelled as a timer record holding the captured text and a
`cancelled` flag; `timers` lists every timer ever armed, in arming order,
and `pending` is the index held by the `pending_translation_task` variable.
A reschedule (the tail of the FINAL_TRANSCRIPT branch, main.py:516-532)
cancels the pending task and then arms a new one exactly when the remaining
text has non-empty strip.  Firing a timer replays the body of
`_delayed_translation` after its sleep: a cancelled task never resumes
(`asyncio.CancelledError`); otherwise the task checks that
`pending_translation_task` is set and not cancelled, translates its own
captured text when its strip is non-empty, and resets
`pending_translation_task` to `None`. -/
/-- One `_delayed_translation` asyncio task. -/
structure DebounceTimer where
  text : String
  cancelled : Bool
deriving Repr, DecidableEq

/-- The timers armed so far and the current `pending_translation_task`. -/
structure DebounceState where
  timers : List DebounceTimer
  pending : Option Nat
deriving Repr, DecidableEq

/-- A fresh session: no timer armed (main.py:334). -/
def initDebounceState : DebounceState := ⟨[], none⟩

/-- `if pending_translation_task: pending_translation_task.cancel()`
(main.py:520-521 and 529-531): mark the pending task cancelled (its
captured text is untouched) and forget the handle. -/
def cancel_pending (s : DebounceState) : DebounceState :=
  match s.pending with
  | none => s
  | some j =>
    match s.timers.get? j with
    | none => { s with pending := none }
    | some tm =>
      { timers := s.timers.set j { tm with cancelled := true }, pending := none }

/-- One reschedule on new remaining text (main.py:516-532): cancel any
pending task first; arm a new delayed-translation task only when the
remaining text has non-empty strip. -/
def reschedule (s : DebounceState) (text : String) : DebounceState :=
  let s' := cancel_pending s
  if pyStrip text ≠ "" then
    { timers := s'.timers ++ [{ text := text, cancelled := false }]
      pending := some s'.timers.length }
  else s'

/-- Timer `i`'s delay elapses (main.py:394-403): a cancelled task never
resumes; a live one checks the current `pending_translation_task`, emits
its own captured text when non-blank, and clears the pending variable. -/
def fire_timer (s : DebounceState) (i : Nat) : DebounceState × List String :=
  match s.timers.get? i with
  | none => (s, [])
  | some tm =>
    if tm.cancelled then (s, [])
    else
      match s.pending with
      | none => (s, [])
      | some j =>
        match s.timers.get? j with
        | none => (s, [])
        | some pj =>
          if pj.cancelled then (s, [])
          else
            ({ s with pending := none },
              if pyStrip tm.text ≠ "" then [tm.text] else [])

/-- Fire the given timers in order, collecting emissions. -/
def fire_all : DebounceState → List Nat → DebounceState × List String
  | s, [] => (s, [])
  | s, i :: is =>
    let r := fire_timer s i
    let rest := fire_all r.1 is
    (rest.1, r.2 ++ rest.2)

/-- State after a burst of reschedules, each arriving before any armed
delay elapses (so no timer fires in between). -/
def state_after (ts : List String) : DebounceState :=
  ts.foldl reschedule initDebounceState

/-- A burst of reschedules followed by every armed timer's delay elapsing,
in arming order: the emissions observed. -/
def run_debounce (ts : List String) : List String :=
  let s := state_after ts
  (fire_all s (List.range s.timers.length)).2

/-- Number of live (armed, not cancelled) timers. -/
def count_live (s : DebounceState) : Nat :=
  (s.timers.filter (fun tm => !tm.cancelled)).length

example : run_debounce ["Hello", "Hello wo", "Hello world"] = ["Hello world"] := by decide

example : run_debounce ["Hello", "  "] = [] := by decide

example : run_debounce [] = [] := by decide

example : count_live (state_after ["a", "b", "c"]) = 1 := by decide

/-! ## Broadcast registry: `broadcast_to_displays` (main.py:55-85)

A connected display is modelled by an identifier plus the outcome its
`websocket.send` would have for this broadcast: success, a
`ConnectionClosed` error, or any other exception.  Both failure kinds are
caught by the `try/except` (main.py:76-82) and put the handle into the
`disconnected` set, which is subtracted from the registry before the call
returns (main.py:85). -/
/-- Outcome of `websocket.send` for one subscriber. -/
inductive SendResult where
  | ok : SendResult
  | connectionClosed : SendResult
  | otherError : String → SendResult
deriving Repr, DecidableEq

/-- One connected display client. -/
structure DisplayClient where
  id : Nat
  outcome : SendResult
deriving Repr, DecidableEq

/-- The JSON message assembled by `broadcast_to_displays` (main.py:63-68). -/
structure WireMessage where
  type : String
  language : String
  text : String
  timestamp : Nat
deriving Repr, DecidableEq

/-- `await websocket.send(message_json)`: raises on failure. -/
def send_to_display (ws : DisplayClient) (_msg : WireMessage) : Except String Unit :=
  match ws.outcome with
  | SendResult.ok => Except.ok ()
  | SendResult.connectionClosed => Except.error "ConnectionClosed"
  | SendResult.otherError e => Except.error e

/-- `broadcast_to_displays(message_type, language, text)` (main.py:55-85):
early return when no display is connected; otherwise try to send the wire
message to every connected display, catching every send failure into the
`disconnected` set, and finally remove the disconnected clients from the
registry.  The result is the registry after the call; the `Except` layer
shows that no send failure escapes the function. -/
def broadcast_to_displays (connected_displays : List DisplayClient)
    (message_type language text : String) (now : Nat) :
    Except String (List DisplayClient) :=
  if connected_displays.isEmpty then Except.ok connected_displays
  else
    let message : WireMessage :=
      { type := message_type, language := language, text := text, timestamp := now }
    let disconnected := connected_displays.foldl
      (fun acc ws =>
        match send_to_display ws message with
        | Except.ok _ => acc
        | Except.error _ => acc ++ [ws])
      ([] : List DisplayClient)
    Except.ok (connected_displays.filter (fun ws => !(ws ∈ disconnected)))

example :
    broadcast_to_displays [⟨1, SendResult.ok⟩, ⟨2, SendResult.connectionClosed⟩,
      ⟨3, SendResult.otherError "boom"⟩] "transcription" "ar" "مرحبا" 0 =
      Except.ok [⟨1, SendResult.ok⟩] := rfl

/-! ## Claim C6: the debounce single-timer discipline -/
/-- Invariant of the debounce state: either no task is pending and every
timer ever armed is cancelled, or exactly the last armed timer is live, the
pending handle points at it, and its text has non-empty strip. -/
def DebounceInv (s : DebounceState) : Prop :=
  match s.pending with
  | none => s.timers.all (fun tm => tm.cancelled) = true
  | some j => ∃ front t, s.timers = front ++ [⟨t, false⟩] ∧ j = front.length ∧
      front.all (fun tm => tm.cancelled) = true ∧ pyStrip t ≠ ""

/-- How the pending timer of a debounce state relates to the most recent
rescheduled text. -/
def PendingSpec (s : DebounceState) : Option String → Prop
  | none => s.pending = none
  | some t =>
    if pyStrip t = "" then s.pending = none
    else ∃ front, s.timers = front ++ [⟨t, false⟩] ∧ s.pending = some front.length ∧
      front.all (fun tm => tm.cancelled) = true

/-- Sanity check of the `re.split` model: the parts concatenate back to the
input. -/
theorem reSplitBoundary_flatten (cs : List Char) : (reSplitBoundary cs).flatten = cs := by
  induction cs with
  | nil => rfl
  | cons c cs ih =>
    by_cases hc : isBoundaryChar c = true
    · simp only [reSplitBoundary, hc, if_true]
      cases hp : reSplitBoundary cs with
      | nil => simp_all
      | cons t rest =>
        cases t with
        | nil =>
          cases rest with
          | nil => simp_all
          | cons b rest' => simp_all
        | cons x xs => simp_all
    · simp only [reSplitBoundary, hc, if_false]
      cases hp : reSplitBoundary cs with
      | nil => simp_all
      | cons t rest => simp_all

/-- The `re.split` model satisfies the alternating-parts contract. -/
theorem reSplitBoundary_alt (cs : List Char) : altParts (reSplitBoundary cs) = true := by
  induction cs with
  | nil => rfl
  | cons c cs ih =>
    by_cases hc : isBoundaryChar c = true
    · simp only [reSplitBoundary, hc, if_true]
      cases hp : reSplitBoundary cs with
      | nil => simp [altParts, hc]
      | cons t rest =>
        rw [hp] at ih
        cases t with
        | nil =>
          cases rest with
          | nil => simp_all [altParts, hc]
          | cons b rest' => simp_all [altParts, hc]
        | cons x xs => simp_all [altParts, hc]
    · simp only [reSplitBoundary, hc, if_false]
      cases hp : reSplitBoundary cs with
      | nil => simp [altParts, hc]
      | cons t rest =>
        rw [hp] at ih
        cases rest with
        | nil => simp_all [altParts, hc]
        | cons b rest' => simp_all [altParts, hc]

theorem boundary_not_whitespace (c : Char) (h : isBoundaryChar c = true) :
    isPyWhitespace c = false := by
  simp only [isBoundaryChar, Bool.or_eq_true, decide_eq_true_eq] at h
  rcases h with ((h | h) | h) | h <;> subst h <;> decide

theorem mem_of_getLast?_eq (l : List α) (a : α) (h : l.getLast? = some a) : a ∈ l := by
  obtain ⟨hne, heq⟩ := List.mem_getLast?_eq_getLast (Option.mem_def.mpr h)
  subst heq
  exact List.getLast_mem hne

theorem pyStripList_subset (l : List Char) (c : Char) (h : c ∈ pyStripList l) : c ∈ l := by
  unfold pyStripList at h
  rw [List.mem_reverse] at h
  have h1 := (List.dropWhile_suffix isPyWhitespace).subset h
  rw [List.mem_reverse] at h1
  exact (List.dropWhile_suffix isPyWhitespace).subset h1

/-- Stripping preserves a non-whitespace final character. -/
theorem pyStripList_getLast? (l : List Char) (c : Char) (hlast : l.getLast? = some c)
    (hw : isPyWhitespace c = false) : (pyStripList l).getLast? = some c := by
  unfold pyStripList
  rw [List.getLast?_reverse]
  have hm : l.dropWhile isPyWhitespace ≠ [] := by
    intro hnil
    have hall := List.dropWhile_eq_nil_iff.mp hnil
    have hc := hall c (mem_of_getLast?_eq l c hlast)
    rw [hw] at hc
    exact Bool.noConfusion hc
  have hlast2 : (l.dropWhile isPyWhitespace).getLast? = some c := by
    obtain ⟨t, ht⟩ := List.dropWhile_suffix (p := isPyWhitespace) (l := l)
    rw [← ht, List.getLast?_append] at hlast
    cases hgl : (l.dropWhile isPyWhitespace).getLast? with
    | none => exact absurd (List.getLast?_eq_none_iff.mp hgl) hm
    | some d => rw [hgl] at hlast; simpa [Option.or] using hlast
  have hhead : (l.dropWhile isPyWhitespace).reverse.head? = some c := by
    rw [List.head?_reverse]; exact hlast2
  obtain ⟨t, ht⟩ : ∃ t, (l.dropWhile isPyWhitespace).reverse = c :: t := by
    cases hrev : (l.dropWhile isPyWhitespace).reverse with
    | nil => rw [hrev] at hhead; exact absurd hhead (by simp)
    | cons x t => rw [hrev] at hhead; simp only [List.head?_cons, Option.some.injEq] at hhead; exact ⟨t, by rw [hhead]⟩
  rw [ht]
  simp [List.dropWhile_cons, hw]

/-- Behaviour of the pairing loop on well-formed parts: every produced
sentence retains its terminating boundary characters (its last character is
a boundary character), and the remaining text contains no boundary
character at all. -/
theorem sentenceLoop_spec : ∀ parts : List (List Char), altParts parts = true →
    (sentenceLoop parts).1.all endsWithBoundary = true ∧
      hasNoBoundary (sentenceLoop parts).2 = true
  | [] => fun _ => by constructor <;> rfl
  | [p] => fun h => by
    simp only [altParts] at h
    refine ⟨rfl, ?_⟩
    simp only [sentenceLoop, hasNoBoundary]
    rw [List.all_eq_true]
    intro x hx
    have hx' : x ∈ p := pyStripList_subset p x hx
    simpa using List.all_eq_true.mp h x hx'
  | p0 :: p1 :: rest => fun h => by
    simp only [altParts, Bool.and_eq_true] at h
    obtain ⟨⟨⟨hp0, hp1ne⟩, hp1all⟩, hrest⟩ := h
    have ih := sentenceLoop_spec rest hrest
    obtain ⟨d, hd⟩ : ∃ d, p1.getLast? = some d := by
      cases hgl : p1.getLast? with
      | none =>
        rw [List.getLast?_eq_none_iff.mp hgl] at hp1ne
        exact absurd hp1ne (by simp)
      | some a => exact ⟨a, rfl⟩
    have hdb : isBoundaryChar d = true := by
      simpa using List.all_eq_true.mp hp1all d (mem_of_getLast?_eq p1 d hd)
    have hmatch : startsWithBoundary p1 = true := by
      cases p1 with
      | nil => simp at hp1ne
      | cons c cs1 =>
        show isBoundaryChar c = true
        simpa using List.all_eq_true.mp hp1all c (by simp)
    have hsl : (p0 ++ p1).getLast? = some d := by
      rw [List.getLast?_append, hd]; rfl
    have hstriplast : (pyStripList (p0 ++ p1)).getLast? = some d :=
      pyStripList_getLast? (p0 ++ p1) d hsl (boundary_not_whitespace d hdb)
    have hends : endsWithBoundary (String.mk (pyStripList (p0 ++ p1))) = true := by
      simp only [endsWithBoundary]
      have hcoe : (String.mk (pyStripList (p0 ++ p1))).toList = pyStripList (p0 ++ p1) := rfl
      rw [hcoe, hstriplast]
      exact hdb
    constructor
    · simp only [sentenceLoop, hmatch, eq_self_iff_true, if_true]
      split_ifs with hs
      · simp only [List.all_cons, Bool.and_eq_true]
        exact ⟨hends, ih.1⟩
      · exact ih.1
    · simp only [sentenceLoop, hmatch, eq_self_iff_true, if_true]
      exact ih.2

/-- `_extract_complete_sentences`: every complete sentence ends with one of
the four boundary characters `. ! ? ؟` (boundaries retained), and the
remaining text contains none of them (it is the text after the last
boundary). -/
theorem extract_complete_sentences_spec (text : String) :
    (extract_complete_sentences text).1.all endsWithBoundary = true ∧
      hasNoBoundary (extract_complete_sentences text).2 = true := by
  unfold extract_complete_sentences
  by_cases h : pyStrip text = ""
  · simp only [h, if_true]
    exact ⟨rfl, rfl⟩
  · simp only [h, if_false]
    exact sentenceLoop_spec (reSplitBoundary text.toList) (reSplitBoundary_alt text.toList)

/-! ## Claim C4: sentence boundaries -/
/-- Counterexample to claim C4: the newline character is *not* treated as a
sentence boundary.  On `"hi\nthere"` the claim predicts a sentence ending
at the newline and remainder `"there"`; the code finds no sentence at all
and returns the whole text — newline included — as the remainder. -/
theorem newline_not_boundary_cex :
    (extract_complete_sentences "hi\nthere").1 = [] ∧
      (extract_complete_sentences "hi\nthere").2 ≠ "there" := by decide

/-- Claim C4 (amended): the segmenter treats exactly `.`, `!`, `?` and the
Arabic question mark `؟` — but not newline — as sentence boundaries; the
boundary characters are retained at the end of each complete sentence (its
last character is a boundary character), and the remaining text after the
last boundary contains no boundary character. -/
theorem sentence_boundary_characters (text : String) :
    (extract_complete_sentences text).1.all endsWithBoundary = true ∧
      hasNoBoundary (extract_complete_sentences text).2 = true ∧
      isBoundaryChar '\n' = false :=
  ⟨(extract_complete_sentences_spec text).1, (extract_complete_sentences_spec text).2, by decide⟩

/-! ## Claim C2: one output per translate call -/
/-- Counterexample to claim C2: a failing external call is *not* caught
inside `Translator.translate` — the exception propagates and no unit is
published (not one); and an empty streamed result is published as the empty
string, not as a language-tagged placeholder or the original text. -/
theorem translate_output_cex :
    ¬ ((published_units (translate_run (default_system_message "nl") ⟨true, 10⟩ [] "hello"
          (Except.error "APIConnectionError"))).length = 1) ∧
      published_units (translate_run (default_system_message "nl") ⟨true, 10⟩ [] "hello"
          (Except.ok [])) = [""] := by
  constructor
  · decide
  · rfl

/-- Claim C2 (amended): when the external call succeeds, `translate`
publishes exactly one unit carrying exactly the concatenated stream result
— even when that result is empty or whitespace (no placeholder or fallback
is substituted); when the external call fails, the exception propagates out
of `translate` and nothing is published (the failure is only contained
later, by the dispatcher's `gather(..., return_exceptions=True)`). -/
theorem translate_one_output (system_message : String × String) (policy : ContextPolicy)
    (message_history : List (String × String)) (message : String)
    (outcome : Except String (List LLMChunk)) :
    published_units (translate_run system_message policy message_history message outcome) =
      (match outcome with
       | Except.ok chunks => [collect_stream "" chunks]
       | Except.error _ => []) := by
  cases outcome <;> rfl

/-! ## Claim C3: the request sent to the LLM -/
/-- Claim C3 (code bug): with context disabled, `_maintain_context_window`
clears the message history *after* the new user turn was appended and
*before* `_rebuild_context` builds the request (main.py:227-235), so the
request consists of the system prompt alone and the text to translate is
never sent — contradicting the code's own comment "Rebuild context to
include the new user message" (main.py:232).  Evaluated at the failing
input: context disabled, fresh history, message `"مرحبا"`. -/
theorem context_disabled_request_has_no_user_turn :
    (translate_ok (default_system_message "nl") ⟨false, 10⟩ [] "مرحبا" []).request
        = [default_system_message "nl"] ∧
      ¬ ("user", "مرحبا") ∈
        (translate_ok (default_system_message "nl") ⟨false, 10⟩ [] "مرحبا" []).request := by
  constructor
  · rfl
  · decide

/-! ## Claim C5: the context window bound -/
/-- Counterexample to claim C5: with `contextPolicy.maxPairs = 0` the trim
slice is `message_history[-0:]`, which keeps the *whole* list (Python
`-0 = 0`), so after one completed `translate` call the history holds 2
messages — not at most `2 * 0 = 0`. -/
theorem context_window_bound_cex :
    (translate_ok (default_system_message "nl") ⟨true, 0⟩ [] "hi" []).history.length = 2 ∧
      ¬ ((translate_ok (default_system_message "nl") ⟨true, 0⟩ [] "hi" []).history.length
          ≤ 2 * 0) := by decide

theorem maintain_context_window_length_le (policy : ContextPolicy)
    (message_history : List (String × String)) (he : policy.enabled = true)
    (hN : 1 ≤ policy.maxPairs) :
    (maintain_context_window policy message_history).length ≤ 2 * policy.maxPairs := by
  unfold maintain_context_window
  rw [he]
  simp only [Bool.not_true, Bool.false_eq_true, if_false]
  split_ifs with hlen
  · unfold pyTakeLast
    rw [if_neg (by omega)]
    rw [List.length_drop]
    omega
  · omega

/-- Claim C5 (amended): for `maxPairs = N ≥ 1` with context enabled,
`len(history) ≤ 2N` holds after every completed `_maintain_context_window`
and hence at the end of every completed `translate` call (immediately after
an append, before the following trim, the length may transiently reach
`2N + 1`); for `N = 0` no trimming happens at all (the `[-0:]` slice); with
context disabled the history is empty after every completed call. -/
theorem context_window_bound (system_message : String × String) (policy : ContextPolicy)
    (message_history : List (String × String)) (message : String) (chunks : List LLMChunk) :
    (policy.enabled = true → 1 ≤ policy.maxPairs →
      (maintain_context_window policy message_history).length ≤ 2 * policy.maxPairs ∧
        (translate_ok system_message policy message_history message chunks).history.length
          ≤ 2 * policy.maxPairs) ∧
      (policy.enabled = false →
        (translate_ok system_message policy message_history message chunks).history = []) := by
  constructor
  · intro he hN
    refine ⟨maintain_context_window_length_le policy message_history he hN, ?_⟩
    exact maintain_context_window_length_le policy _ he hN
  · intro he
    show maintain_context_window policy _ = []
    unfold maintain_context_window
    rw [he]
    rfl

/-- Witness for the amended claim C5 at concrete inputs. -/
theorem context_window_bound_witness :
    (maintain_context_window ⟨true, 1⟩
        [("user", "a"), ("assistant", "b"), ("user", "c")]).length ≤ 2 * 1 ∧
      (translate_ok (default_system_message "nl") ⟨true, 1⟩
        [("user", "a"), ("assistant", "b")] "x" []).history.length ≤ 2 * 1 ∧
      (translate_ok (default_system_message "nl") ⟨false, 1⟩ [] "x" []).history = [] := by
  refine ⟨?_, ?_, ?_⟩
  · exact ((context_window_bound (default_system_message "nl") ⟨true, 1⟩
      [("user", "a"), ("assistant", "b"), ("user", "c")] "x" []).1 rfl (by decide)).1
  · exact ((context_window_bound (default_system_message "nl") ⟨true, 1⟩
      [("user", "a"), ("assistant", "b")] "x" []).1 rfl (by decide)).2
  · exact (context_window_bound (default_system_message "nl") ⟨false, 1⟩ [] "x" []).2 rfl

/-! ## Claim C7: idempotent duplicate suppression -/
theorem forward_final_transcript_skip (st : SessionState) (hasTranslators : Bool) (raw : String)
    (h : ¬ (pyStrip raw ≠ "" ∧ pyStrip raw ≠ st.last_final_transcript)) :
    forward_final_transcript st hasTranslators raw = (st, ⟨none, []⟩) := by
  unfold forward_final_transcript
  rw [if_neg h]

theorem forward_final_transcript_last (st : SessionState) (hasTranslators : Bool) (raw : String)
    (h : pyStrip raw ≠ "" ∧ pyStrip raw ≠ st.last_final_transcript) :
    (forward_final_transcript st hasTranslators raw).1.last_final_transcript = pyStrip raw := by
  unfold forward_final_transcript
  rw [if_pos h]
  cases hasTranslators <;> rfl

/-- Claim C7 (confirmed): a final transcript equal (after stripping) to the
immediately preceding final transcript, or empty, is ignored: processing
the same raw text twice in a row yields output only on the first call —
the second call publishes nothing, emits no unit, and leaves the buffer,
the last-final-text and the pending-timer state exactly as the first call
left them. -/
theorem duplicate_final_suppressed (st : SessionState) (hasTranslators : Bool) (raw : String) :
    (forward_final_transcript (forward_final_transcript st hasTranslators raw).1
        hasTranslators raw).1 = (forward_final_transcript st hasTranslators raw).1 ∧
      (forward_final_transcript (forward_final_transcript st hasTranslators raw).1
        hasTranslators raw).2.publishedFinal = none ∧
      (forward_final_transcript (forward_final_transcript st hasTranslators raw).1
        hasTranslators raw).2.units = [] := by
  by_cases h : pyStrip raw ≠ "" ∧ pyStrip raw ≠ st.last_final_transcript
  · have hl := forward_final_transcript_last st hasTranslators raw h
    have hskip := forward_final_transcript_skip
      (forward_final_transcript st hasTranslators raw).1 hasTranslators raw (by rw [hl]; simp)
    rw [hskip]
    exact ⟨rfl, rfl, rfl⟩
  · have hskip := forward_final_transcript_skip st hasTranslators raw h
    simp [hskip]

/-! ## Claim C9: broadcast removes failed subscribers -/
theorem broadcast_foldl_filter (msg : WireMessage) :
    ∀ (subs : List DisplayClient) (acc : List DisplayClient),
      subs.foldl
          (fun acc ws =>
            match send_to_display ws msg with
            | Except.ok _ => acc
            | Except.error _ => acc ++ [ws]) acc
        = acc ++ subs.filter (fun ws => ws.outcome ≠ SendResult.ok)
  | [], acc => by simp
  | ws :: rest, acc => by
    obtain ⟨i, oc⟩ := ws
    cases oc with
    | ok =>
      rw [List.foldl_cons]
      have hs : send_to_display ⟨i, SendResult.ok⟩ msg = Except.ok () := rfl
      simp only [hs]
      rw [broadcast_foldl_filter msg rest]
      simp [List.filter_cons]
    | connectionClosed =>
      rw [List.foldl_cons]
      have hs : send_to_display ⟨i, SendResult.connectionClosed⟩ msg
          = Except.error "ConnectionClosed" := rfl
      simp only [hs]
      rw [broadcast_foldl_filter msg rest]
      simp [List.filter_cons]
    | otherError e =>
      rw [List.foldl_cons]
      have hs : send_to_display ⟨i, SendResult.otherError e⟩ msg = Except.error e := rfl
      simp only [hs]
      rw [broadcast_foldl_filter msg rest]
      simp [List.filter_cons]

/-- Claim C9 (confirmed): `broadcast_to_displays` never lets a send failure
escape (it always returns a registry, modelled by always returning
`Except.ok`), and every subscriber whose send fails — connection closed or
any other error — is removed from the registry as part of the same call,
so it is absent from the set used by the next broadcast. -/
theorem broadcast_removes_failed (connected_displays : List DisplayClient)
    (message_type language text : String) (now : Nat) :
    ∃ l, broadcast_to_displays connected_displays message_type language text now
          = Except.ok l ∧
      ∀ ws, ws ∈ connected_displays → ws.outcome ≠ SendResult.ok → ¬ ws ∈ l := by
  unfold broadcast_to_displays
  by_cases hemp : connected_displays.isEmpty = true
  · rw [if_pos hemp]
    refine ⟨connected_displays, rfl, ?_⟩
    intro ws hmem _
    rw [List.isEmpty_iff] at hemp
    subst hemp
    simp at hmem
  · rw [if_neg hemp]
    refine ⟨_, rfl, ?_⟩
    intro ws hmem hfail hcontra
    have h1 := (List.mem_filter.mp hcontra).2
    have hdisc : ws ∈ connected_displays.foldl
        (fun acc ws =>
          match send_to_display ws
              ⟨message_type, language, text, now⟩ with
          | Except.ok _ => acc
          | Except.error _ => acc ++ [ws]) [] := by
      rw [broadcast_foldl_filter]
      simp only [List.nil_append]
      exact List.mem_filter.mpr ⟨hmem, by simpa using hfail⟩
    simp only [hdisc] at h1
    simp at h1

/-- Witness for claim C9 at a concrete registry: the client whose send
fails with `ConnectionClosed` is gone from the returned registry. -/
theorem broadcast_removes_failed_witness :
    ∃ l, broadcast_to_displays
          [⟨1, SendResult.ok⟩, ⟨2, SendResult.connectionClosed⟩]
          "transcription" "ar" "hi" 0 = Except.ok l ∧
      ¬ (⟨2, SendResult.connectionClosed⟩ : DisplayClient) ∈ l := by
  obtain ⟨l, h1, h2⟩ := broadcast_removes_failed
    [⟨1, SendResult.ok⟩, ⟨2, SendResult.connectionClosed⟩] "transcription" "ar" "hi" 0
  exact ⟨l, h1, h2 ⟨2, SendResult.connectionClosed⟩ (by decide) (by decide)⟩

/-! ## Claim C1: flushing an unrelated new utterance -/
/-- Counterexample to claim C1: buffer `"foo bar"` (no complete sentence),
new unrelated transcript `"baz qux"`.  The claim requires the leftover
remainder `"foo bar"` to be emitted as a standalone unit during the flush;
the code emits nothing at all (the emission of the remainder is commented
out, main.py:488-490), silently dropping `"foo bar"`. -/
theorem flush_drops_remainder_cex :
    (forward_final_transcript ⟨"foo bar", "", none⟩ true "baz qux").2.units = [] ∧
      ¬ "foo bar" ∈ (forward_final_transcript ⟨"foo bar", "", none⟩ true "baz qux").2.units := by
  decide

/-- Claim C1 (amended): when a new final transcript is unrelated to the
non-empty buffer (not an extension, not a containment, not a single-word
continuation), the flush emits only the *complete sentences* of the old
buffer; the leftover unsegmented remainder of the buffer is dropped — not
emitted — and the buffer is then replaced by the new text (whose own
complete sentences are emitted in the same call). -/
theorem flush_emits_sentences_only (st : SessionState) (raw : String)
    (hacc : st.accumulated_text ≠ "")
    (h1 : pyStartswith (pyStrip raw) (pyStrip st.accumulated_text) = false)
    (h2 : pyIn (pyStrip st.accumulated_text) (pyStrip raw) = false)
    (h3 : ¬ ((pyWords (pyStrip raw)).length = 1 ∧ 1 ≤ (pyWords st.accumulated_text).length))
    (h4 : pyStrip raw ≠ "")
    (h5 : pyStrip raw ≠ st.last_final_transcript) :
    (forward_final_transcript st true raw).2.units =
      (extract_complete_sentences st.accumulated_text).1 ++
        (extract_complete_sentences (pyStrip raw)).1 := by
  have hm : merge_accumulated st.accumulated_text (pyStrip raw)
      = (pyStrip raw, (extract_complete_sentences st.accumulated_text).1) := by
    unfold merge_accumulated
    rw [if_pos hacc, if_neg (by simp [h1]), if_neg (by simp [h2]), if_neg h3]
    by_cases hstrip : pyStrip st.accumulated_text = ""
    · rw [if_neg (by simp [hstrip])]
      have he : extract_complete_sentences st.accumulated_text = ([], "") := by
        unfold extract_complete_sentences
        rw [if_pos hstrip]
      rw [he]
    · rw [if_pos hstrip]
  unfold forward_final_transcript
  rw [if_pos (And.intro h4 h5)]
  simp only [hm]
  simp

/-- Witness for the amended claim C1 at a concrete buffer and transcript:
only the complete sentence `"One done."` of the flushed buffer is emitted;
its remainder `"leftover"` is not. -/
theorem flush_emits_sentences_only_witness :
    (forward_final_transcript ⟨"One done. leftover", "", none⟩ true "totally new text").2.units
      = (extract_complete_sentences "One done. leftover").1 ++
        (extract_complete_sentences "totally new text").1 :=
  flush_emits_sentences_only ⟨"One done. leftover", "", none⟩ "totally new text"
    (by decide) (by decide) (by decide) (by decide) (by decide) (by decide)

/-! ## Claim C8: dispatcher fan-out, failure containment, empty no-op -/
theorem eraseIdx_map_comm (f : α → β) : ∀ (l : List α) (i : Nat),
    (l.map f).eraseIdx i = (l.eraseIdx i).map f
  | [], _ => rfl
  | _ :: _, 0 => rfl
  | a :: l, i + 1 => by
    simp only [List.map_cons, List.eraseIdx_cons_succ, List.map_cons]
    rw [eraseIdx_map_comm f l i]

theorem eraseIdx_set_comm : ∀ (l : List α) (i : Nat) (a : α),
    (l.set i a).eraseIdx i = l.eraseIdx i
  | [], _, _ => rfl
  | _ :: _, 0, _ => rfl
  | x :: l, i + 1, a => by
    simp only [List.set_cons_succ, List.eraseIdx_cons_succ]
    rw [eraseIdx_set_comm l i a]

theorem gather_build_eq_map (translators : List (String × (String → Except String String)))
    (sentence : String) :
    gather_return_exceptions (build_translation_tasks translators sentence)
      = translators.map (fun lt => lt.2 sentence) := by
  unfold gather_return_exceptions build_translation_tasks
  rw [List.map_map]
  rfl

theorem set_isEmpty (l : List α) (i : Nat) (a : α) : (l.set i a).isEmpty = l.isEmpty := by
  cases l <;> cases i <;> rfl

/-- Claim C8 (confirmed): `_translate_sentences` is a no-op when there are
no sentences or no registered translators; for every dispatched sentence it
fans out to *every* registered translator and gathers every result before
returning (each gathered row has one entry per translator, errors kept in
place); and one translator's failure is contained — replacing the
behaviour of the translator at position `i` (for instance by one that
always raises) leaves every sibling translator's results unchanged. -/
theorem dispatch_fanout_containment :
    (∀ translators : List (String × (String → Except String String)),
        translate_sentences translators [] = []) ∧
      (∀ sentences : List String, translate_sentences [] sentences = []) ∧
      (∀ (translators : List (String × (String → Except String String)))
          (sentences : List String) (row : List (Except String String)),
        row ∈ translate_sentences translators sentences → row.length = translators.length) ∧
      (∀ (translators : List (String × (String → Except String String)))
          (sentences : List String) (i : Nat) (lang : String)
          (f g : String → Except String String),
        (translate_sentences (translators.set i (lang, f)) sentences).map
            (fun row => row.eraseIdx i)
          = (translate_sentences (translators.set i (lang, g)) sentences).map
              (fun row => row.eraseIdx i)) := by
  refine ⟨?_, ?_, ?_, ?_⟩
  · intro translators
    unfold translate_sentences
    simp
  · intro sentences
    unfold translate_sentences
    simp
  · intro translators sentences row hrow
    unfold translate_sentences at hrow
    split_ifs at hrow with hcond
    · simp at hrow
    · obtain ⟨s, _, hs⟩ := List.mem_filterMap.mp hrow
      by_cases hstrip : pyStrip s ≠ ""
      · rw [if_pos hstrip] at hs
        have hrw : gather_return_exceptions (build_translation_tasks translators s) = row := by
          simpa using hs
        rw [← hrw, gather_build_eq_map]
        simp
      · rw [if_neg hstrip] at hs
        exact absurd hs (by simp)
  · intro translators sentences i lang f g
    unfold translate_sentences
    rw [set_isEmpty, set_isEmpty]
    split_ifs with hcond
    · rfl
    · rw [List.map_filterMap, List.map_filterMap]
      apply List.filterMap_congr
      intro s _
      by_cases hstrip : pyStrip s ≠ ""
      · have key : (gather_return_exceptions
              (build_translation_tasks (translators.set i (lang, f)) s)).eraseIdx i
            = (gather_return_exceptions
              (build_translation_tasks (translators.set i (lang, g)) s)).eraseIdx i := by
          rw [gather_build_eq_map, gather_build_eq_map,
            eraseIdx_map_comm, eraseIdx_map_comm,
            eraseIdx_set_comm, eraseIdx_set_comm]
        simp [hstrip, key]
      · simp [hstrip]

/-- Witness for claim C8: two translators, the first one failing; the
gathered row still has both results, the no-op cases hold, and erasing the
failing slot yields the same sibling results as with a succeeding one. -/
theorem dispatch_fanout_containment_witness :
    translate_sentences
        [("es", fun _ => Except.error "boom"), ("fr", fun s => Except.ok s)] [] = [] ∧
      translate_sentences [] ["hola."] = [] ∧
      [Except.error "boom", Except.ok "hola."].length
        = [("es", fun _ => Except.error "boom"),
            ("fr", fun (s : String) => Except.ok s)].length ∧
      (translate_sentences
          ([("es", fun (s : String) => Except.ok s),
            ("fr", fun (s : String) => Except.ok s)].set 0
            ("es", fun _ => Except.error "boom")) ["hola."]).map
          (fun row => row.eraseIdx 0)
        = (translate_sentences
            ([("es", fun (s : String) => Except.ok s),
              ("fr", fun (s : String) => Except.ok s)].set 0
              ("es", fun (s : String) => Except.ok s)) ["hola."]).map
            (fun row => row.eraseIdx 0) := by
  refine ⟨?_, ?_, ?_, ?_⟩
  · exact dispatch_fanout_containment.1
      [("es", fun _ => Except.error "boom"), ("fr", fun s => Except.ok s)]
  · exact dispatch_fanout_containment.2.1 ["hola."]
  · exact dispatch_fanout_containment.2.2.1
      [("es", fun _ => Except.error "boom"), ("fr", fun s => Except.ok s)] ["hola."]
      [Except.error "boom", Except.ok "hola."] (by
        show [Except.error "boom", Except.ok "hola."]
          ∈ translate_sentences
              [("es", fun _ => Except.error "boom"), ("fr", fun s => Except.ok s)] ["hola."]
        have : translate_sentences
            [("es", fun _ => Except.error "boom"), ("fr", fun (s : String) => Except.ok s)]
            ["hola."] = [[Except.error "boom", Except.ok "hola."]] := rfl
        rw [this]
        simp)
  · exact dispatch_fanout_containment.2.2.2
      [("es", fun (s : String) => Except.ok s), ("fr", fun (s : String) => Except.ok s)]
      ["hola."] 0 "es" (fun _ => Except.error "boom") (fun s => Except.ok s)

/-! ## Claim C10: the history is whole (user, assistant) pairs -/
theorem isPairList_append_pair : ∀ (l : List (String × String)) (x y : String),
    isPairList l = true → isPairList (l ++ [("user", x), ("assistant", y)]) = true
  | [], _, _, _ => by rfl
  | [q], _, _, h => by simp [isPairList] at h
  | (r1, c1) :: (r2, c2) :: rest, x, y, h => by
    simp only [isPairList, Bool.and_eq_true] at h
    obtain ⟨⟨hr1, hr2⟩, hrest⟩ := h
    have ih := isPairList_append_pair rest x y hrest
    simp only [List.cons_append, isPairList, Bool.and_eq_true]
    exact ⟨⟨hr1, hr2⟩, ih⟩

theorem isPairList_length_even : ∀ l : List (String × String),
    isPairList l = true → l.length % 2 = 0
  | [], _ => rfl
  | [q], h => by simp [isPairList] at h
  | (r1, c1) :: (r2, c2) :: rest, h => by
    simp only [isPairList, Bool.and_eq_true] at h
    have := isPairList_length_even rest h.2
    simp only [List.length_cons]
    omega

theorem isPairList_drop_two : ∀ l : List (String × String),
    isPairList l = true → isPairList (l.drop 2) = true
  | [], _ => by rfl
  | [q], h => by simp [isPairList] at h
  | (r1, c1) :: (r2, c2) :: rest, h => by
    simp only [isPairList, Bool.and_eq_true] at h
    simpa using h.2

theorem isPairList_drop_even (j : Nat) :
    ∀ l : List (String × String), isPairList l = true → isPairList (l.drop (2 * j)) = true := by
  induction j with
  | zero => intro l h; simpa using h
  | succ n ih =>
    intro l h
    have h2 := ih (l.drop 2) (isPairList_drop_two l h)
    rw [List.drop_drop] at h2
    have harith : 2 * (n + 1) = 2 + 2 * n := by ring
    rw [harith]
    exact h2

theorem pyTakeLast_zero (l : List α) : pyTakeLast 0 l = l := rfl

theorem maintain_context_window_disabled (p : ContextPolicy)
    (l : List (String × String)) (he : p.enabled = false) :
    maintain_context_window p l = [] := by
  unfold maintain_context_window
  rw [he]
  rfl

theorem translate_ok_preserves_pairs (sys : String × String) (p : ContextPolicy)
    (hist : List (String × String)) (msg : String) (chunks : List LLMChunk)
    (h : isPairList hist = true) :
    isPairList (translate_ok sys p hist msg chunks).history = true := by
  have hL : hist.length % 2 = 0 := isPairList_length_even hist h
  show isPairList (maintain_context_window p
    (maintain_context_window p (hist ++ [("user", msg)])
      ++ [("assistant", collect_stream "" chunks)])) = true
  have hpair : isPairList ((hist ++ [("user", msg)])
      ++ [("assistant", collect_stream "" chunks)]) = true := by
    rw [List.append_assoc]
    exact isPairList_append_pair hist msg (collect_stream "" chunks) h
  cases hen : p.enabled with
  | false =>
    rw [maintain_context_window_disabled p _ hen]
    rfl
  | true =>
    by_cases hN0 : p.maxPairs = 0
    · have hinner : maintain_context_window p (hist ++ [("user", msg)])
          = hist ++ [("user", msg)] := by
        unfold maintain_context_window
        rw [hen, hN0]
        simp [pyTakeLast_zero]
      have houter : maintain_context_window p
            ((hist ++ [("user", msg)]) ++ [("assistant", collect_stream "" chunks)])
          = (hist ++ [("user", msg)]) ++ [("assistant", collect_stream "" chunks)] := by
        unfold maintain_context_window
        rw [hen, hN0]
        simp [pyTakeLast_zero]
      rw [hinner, houter]
      exact hpair
    · have hN : 1 ≤ p.maxPairs := Nat.one_le_iff_ne_zero.mpr hN0
      by_cases hlen1 : hist.length + 1 > 2 * p.maxPairs
      · have hinner : maintain_context_window p (hist ++ [("user", msg)])
            = (hist ++ [("user", msg)]).drop (hist.length + 1 - 2 * p.maxPairs) := by
          unfold maintain_context_window
          rw [hen]
          simp only [Bool.not_true, Bool.false_eq_true, if_false]
          rw [if_pos (by simp only [List.length_append, List.length_cons, List.length_nil]; omega)]
          rw [pyTakeLast, if_neg (by omega)]
          simp only [List.length_append, List.length_cons, List.length_nil]
        rw [hinner]
        have hdist : (hist ++ [("user", msg)]).drop (hist.length + 1 - 2 * p.maxPairs)
              ++ [("assistant", collect_stream "" chunks)]
            = ((hist ++ [("user", msg)])
                ++ [("assistant", collect_stream "" chunks)]).drop
                (hist.length + 1 - 2 * p.maxPairs) :=
          (List.drop_append_of_le_length
            (by simp only [List.length_append, List.length_cons, List.length_nil]; omega)).symm
        rw [hdist]
        have hlen3 : (((hist ++ [("user", msg)])
              ++ [("assistant", collect_stream "" chunks)]).drop
              (hist.length + 1 - 2 * p.maxPairs)).length = 2 * p.maxPairs + 1 := by
          rw [List.length_drop]
          simp only [List.length_append, List.length_cons, List.length_nil]
          omega
        have houter : maintain_context_window p
              (((hist ++ [("user", msg)])
                ++ [("assistant", collect_stream "" chunks)]).drop
                (hist.length + 1 - 2 * p.maxPairs))
            = (((hist ++ [("user", msg)])
                ++ [("assistant", collect_stream "" chunks)]).drop
                (hist.length + 1 - 2 * p.maxPairs)).drop 1 := by
          unfold maintain_context_window
          rw [hen]
          simp only [Bool.not_true, Bool.false_eq_true, if_false]
          rw [if_pos (by rw [hlen3]; omega)]
          rw [pyTakeLast, if_neg (by omega)]
          rw [hlen3]
          congr 1
          omega
        rw [houter, List.drop_drop]
        obtain ⟨j, hj⟩ : ∃ j, hist.length + 1 - 2 * p.maxPairs + 1 = 2 * j :=
          ⟨(hist.length + 1 - 2 * p.maxPairs + 1) / 2, by omega⟩
        rw [hj]
        exact isPairList_drop_even j _ hpair
      · have hinner : maintain_context_window p (hist ++ [("user", msg)])
            = hist ++ [("user", msg)] := by
          unfold maintain_context_window
          rw [hen]
          simp only [Bool.not_true, Bool.false_eq_true, if_false]
          rw [if_neg (by simp only [List.length_append, List.length_cons, List.length_nil]; omega)]
        rw [hinner]
        have houter : maintain_context_window p
              ((hist ++ [("user", msg)]) ++ [("assistant", collect_stream "" chunks)])
            = (hist ++ [("user", msg)]) ++ [("assistant", collect_stream "" chunks)] := by
          unfold maintain_context_window
          rw [hen]
          simp only [Bool.not_true, Bool.false_eq_true, if_false]
          rw [if_neg (by simp only [List.length_append, List.length_cons, List.length_nil]; omega)]
        rw [houter]
        exact hpair

/-- Counterexample to claim C10: a failed external call leaves the already
appended `("user", message)` turn in the history with no cleanup
(main.py:227 runs before the raising `llm.chat` loop, main.py:235-243), and
the translator object survives the failure (the dispatcher gathers with
`return_exceptions=True`).  After one failed call and then one *completed*
call the history is `[user, user, assistant]` — odd length, not whole
pairs. -/
theorem history_pairs_cex :
    run_translator_calls (default_system_message "nl")
        [(⟨true, 10⟩, "m1", Except.error "APIConnectionError"),
         (⟨true, 10⟩, "m2", Except.ok [some (some "hallo")])]
      = [("user", "m1"), ("user", "m2"), ("assistant", "hallo")] ∧
    isPairList [("user", "m1"), ("user", "m2"), ("assistant", "hallo")] = false ∧
    ([("user", "m1"), ("user", "m2"), ("assistant", "hallo")]
        : List (String × String)).length % 2 = 1 := by
  decide

/-- Claim C10 (amended): provided every external call of the translator so
far succeeded, after every completed `translate` call (any sequence of
calls, each with whatever policy the settings held at that moment) the
message history has even length and consists of whole `(user, assistant)`
pairs: the user and assistant turns enter together, and every trim keeps an
even-length suffix (`2 * maxPairs` entries, or everything for the `[-0:]`
slice) or clears the history entirely.  A failed call, by contrast, leaves
its dangling user turn behind, so unpaired odd-length histories are
reachable. -/
theorem history_whole_pairs (sys : String × String) (calls : List TranslateCall)
    (hok : ∀ c ∈ calls, ∃ chunks, c.2.2 = Except.ok chunks) :
    isPairList (run_translator_calls sys calls) = true ∧
      (run_translator_calls sys calls).length % 2 = 0 := by
  unfold run_translator_calls
  have key : ∀ (cs : List TranslateCall) (h0 : List (String × String)),
      (∀ c ∈ cs, ∃ chunks, c.2.2 = Except.ok chunks) → isPairList h0 = true →
      isPairList (cs.foldl (history_after_call sys) h0) = true := by
    intro cs
    induction cs with
    | nil => intro h0 _ hh; simpa using hh
    | cons c rest ih =>
      intro h0 hcs hh
      simp only [List.foldl_cons]
      obtain ⟨chunks, hc⟩ := hcs c (List.mem_cons_self c rest)
      have hstep : history_after_call sys h0 c
          = (translate_ok sys c.1 h0 c.2.1 chunks).history := by
        unfold history_after_call translate_run
        rw [hc]
      rw [hstep]
      exact ih _ (fun c' hc' => hcs c' (List.mem_cons_of_mem c hc'))
        (translate_ok_preserves_pairs sys c.1 h0 c.2.1 chunks hh)
  have hp := key calls [] hok rfl
  exact ⟨hp, isPairList_length_even _ hp⟩

/-- Witness for the amended claim C10: two successful calls from a fresh
translator leave a history of whole pairs. -/
theorem history_whole_pairs_witness :
    isPairList (run_translator_calls (default_system_message "nl")
        [(⟨true, 10⟩, "hello", Except.ok [some (some "hallo")]),
         (⟨true, 10⟩, "world", Except.ok [])]) = true ∧
      (run_translator_calls (default_system_message "nl")
        [(⟨true, 10⟩, "hello", Except.ok [some (some "hallo")]),
         (⟨true, 10⟩, "world", Except.ok [])]).length % 2 = 0 :=
  history_whole_pairs (default_system_message "nl")
    [(⟨true, 10⟩, "hello", Except.ok [some (some "hallo")]),
     (⟨true, 10⟩, "world", Except.ok [])]
    (by
      intro c hc
      simp only [List.mem_cons, List.mem_singleton] at hc
      rcases hc with h | h | h
      · subst h; exact ⟨[some (some "hallo")], rfl⟩
      · subst h; exact ⟨[], rfl⟩
      · simp at h)

theorem get?_append_length (front : List α) (x : α) :
    (front ++ [x]).get? front.length = some x := by
  induction front with
  | nil => rfl
  | cons a fr ih => simpa using ih

theorem set_append_length (front : List α) (x y : α) :
    (front ++ [x]).set front.length y = front ++ [y] := by
  induction front with
  | nil => rfl
  | cons a fr ih =>
    simp only [List.cons_append, List.length_cons, List.set_cons_succ]
    rw [ih]

theorem cancel_pending_all (s : DebounceState) (hs : DebounceInv s) :
    (cancel_pending s).timers.all (fun tm => tm.cancelled) = true ∧
      (cancel_pending s).pending = none := by
  unfold DebounceInv at hs
  unfold cancel_pending
  cases hp : s.pending with
  | none =>
    rw [hp] at hs
    exact ⟨hs, hp⟩
  | some j =>
    rw [hp] at hs
    obtain ⟨front, t, hT, hj, hfront, _⟩ := hs
    subst hj
    have hg : s.timers.get? front.length = some ⟨t, false⟩ := by
      rw [hT]; exact get?_append_length front _
    simp only [hg]
    constructor
    · show (s.timers.set front.length ⟨t, true⟩).all (fun tm => tm.cancelled) = true
      rw [hT, set_append_length, List.all_append]
      simp [hfront]
    · trivial

theorem reschedule_inv (s : DebounceState) (t : String) (hs : DebounceInv s) :
    DebounceInv (reschedule s t) := by
  obtain ⟨hall, hpend⟩ := cancel_pending_all s hs
  unfold reschedule
  by_cases hstr : pyStrip t ≠ ""
  · rw [if_pos hstr]
    show ∃ front t', (cancel_pending s).timers ++ [⟨t, false⟩] = front ++ [⟨t', false⟩] ∧
      (cancel_pending s).timers.length = front.length ∧
      front.all (fun tm => tm.cancelled) = true ∧ pyStrip t' ≠ ""
    exact ⟨(cancel_pending s).timers, t, rfl, rfl, hall, hstr⟩
  · rw [if_neg hstr]
    unfold DebounceInv
    rw [hpend]
    exact hall

/-- Characterisation of the state after a burst of reschedules: the
invariant holds, and the pending timer (if any) holds exactly the last
rescheduled text — it exists precisely when that text has non-empty
strip. -/
theorem state_after_spec (ts : List String) :
    DebounceInv (state_after ts) ∧ PendingSpec (state_after ts) ts.getLast? := by
  induction ts using List.reverseRecOn with
  | nil =>
    constructor
    · unfold DebounceInv state_after initDebounceState
      simp
    · show (state_after []).pending = none
      rfl
  | append_singleton xs x ih =>
    have hstep : state_after (xs ++ [x]) = reschedule (state_after xs) x := by
      unfold state_after
      rw [List.foldl_append]
      rfl
    have hInv : DebounceInv (reschedule (state_after xs) x) :=
      reschedule_inv (state_after xs) x ih.1
    obtain ⟨hall, hpend⟩ := cancel_pending_all (state_after xs) ih.1
    constructor
    · rw [hstep]; exact hInv
    · have hlast : (xs ++ [x]).getLast? = some x := by
        simp [List.getLast?_append]
      rw [hlast, hstep]
      simp only [PendingSpec]
      by_cases hstr : pyStrip x = ""
      · rw [if_pos hstr]
        unfold reschedule
        rw [if_neg (by simpa using hstr)]
        exact hpend
      · rw [if_neg hstr]
        unfold reschedule
        rw [if_pos (by simpa using hstr)]
        exact ⟨(cancel_pending (state_after xs)).timers, rfl, rfl, hall⟩

theorem fire_timer_pending_none (s : DebounceState) (i : Nat) (hp : s.pending = none) :
    fire_timer s i = (s, []) := by
  unfold fire_timer
  cases hg : s.timers.get? i with
  | none => rfl
  | some tm => simp [hp]

theorem fire_all_pending_none (s : DebounceState) (hp : s.pending = none) :
    ∀ is : List Nat, fire_all s is = (s, [])
  | [] => rfl
  | i :: is => by
    have h1 := fire_timer_pending_none s i hp
    have h2 := fire_all_pending_none s hp is
    simp only [fire_all, h1, h2]
    rfl

theorem fire_all_live (s : DebounceState) (front : List DebounceTimer) (t : String)
    (hT : s.timers = front ++ [⟨t, false⟩]) (hp : s.pending = some front.length)
    (hfront : front.all (fun tm => tm.cancelled) = true) (hst : pyStrip t ≠ "") :
    ∀ is : List Nat, (fire_all s is).2 = if front.length ∈ is then [t] else []
  | [] => by simp [fire_all]
  | i :: is => by
    by_cases hi : i = front.length
    · have hg : s.timers.get? i = some ⟨t, false⟩ := by
        rw [hi, hT]; exact get?_append_length front _
      have hg' : s.timers.get? front.length = some ⟨t, false⟩ := by
        rw [hT]; exact get?_append_length front _
      have hft : fire_timer s i = ({ s with pending := none }, [t]) := by
        unfold fire_timer
        simp only [hg, hp, hg']
        simp [hst]
      have hrest := fire_all_pending_none { s with pending := none } rfl is
      simp only [fire_all, hft, hrest]
      simp [hi]
    · have hft : fire_timer s i = (s, []) := by
        unfold fire_timer
        cases hg : s.timers.get? i with
        | none => rfl
        | some tm =>
          have hc : tm.cancelled = true := by
            rw [hT] at hg
            by_cases hlt : i < front.length
            · rw [List.get?_append hlt] at hg
              simpa using List.all_eq_true.mp hfront tm (List.get?_mem hg)
            · have hnone : (front ++ [(⟨t, false⟩ : DebounceTimer)]).get? i = none := by
                apply List.get?_eq_none.mpr
                simp only [List.length_append, List.length_cons, List.length_nil]
                omega
              rw [hnone] at hg
              exact Option.noConfusion hg
          simp [hc]
      have hrest := fire_all_live s front t hT hp hfront hst is
      simp only [fire_all, hft, hrest]
      by_cases hmem : front.length ∈ is
      · simp [hmem, List.mem_cons]
      · simp [hmem, List.mem_cons, Ne.symm hi]

/-- Claim C6 (confirmed): under sequential arrival (each reschedule lands
before the armed delay elapses), at most one live (armed, uncancelled)
timer exists after any burst of reschedules — each reschedule cancels the
pending timer before optionally arming a new one, and an empty remainder
arms none; and when all armed delays then elapse, at most one timeout
emission happens, and it emits exactly the last rescheduled remainder
(nothing at all if that remainder was blank). -/
theorem debounce_single_timer :
    (∀ ts : List String, count_live (state_after ts) ≤ 1) ∧
      (∀ ts : List String, run_debounce ts =
        (match ts.getLast? with
         | none => []
         | some t => if pyStrip t = "" then [] else [t])) ∧
      (∀ ts : List String, (run_debounce ts).length ≤ 1) := by
  have hcount : ∀ ts : List String, count_live (state_after ts) ≤ 1 := by
    intro ts
    have hInv := (state_after_spec ts).1
    unfold DebounceInv at hInv
    unfold count_live
    cases hp : (state_after ts).pending with
    | none =>
      rw [hp] at hInv
      have hnil : (state_after ts).timers.filter (fun tm => !tm.cancelled) = [] := by
        rw [List.filter_eq_nil_iff]
        intro tm hm
        have := List.all_eq_true.mp hInv tm hm
        simp [this]
      rw [hnil]
      simp
    | some j =>
      rw [hp] at hInv
      obtain ⟨front, t, hT, _, hfront, _⟩ := hInv
      rw [hT, List.filter_append]
      have hnil : front.filter (fun tm => !tm.cancelled) = [] := by
        rw [List.filter_eq_nil_iff]
        intro tm hm
        have := List.all_eq_true.mp hfront tm hm
        simp [this]
      rw [hnil]
      simp
  have hemit : ∀ ts : List String, run_debounce ts =
      (match ts.getLast? with
       | none => []
       | some t => if pyStrip t = "" then [] else [t]) := by
    intro ts
    have hspec := (state_after_spec ts).2
    simp only [run_debounce]
    cases hl : ts.getLast? with
    | none =>
      rw [hl] at hspec
      simp only [PendingSpec] at hspec
      rw [fire_all_pending_none (state_after ts) hspec]
    | some t =>
      rw [hl] at hspec
      simp only [PendingSpec] at hspec
      by_cases hstr : pyStrip t = ""
      · rw [if_pos hstr] at hspec
        rw [fire_all_pending_none (state_after ts) hspec]
        simp [hstr]
      · rw [if_neg hstr] at hspec
        obtain ⟨front, hT, hp, hfront⟩ := hspec
        rw [fire_all_live (state_after ts) front t hT hp hfront hstr]
        have hmem : front.length ∈ List.range (state_after ts).timers.length := by
          rw [List.mem_range, hT]
          simp
        rw [if_pos hmem]
        simp [hstr]
  refine ⟨hcount, hemit, ?_⟩
  intro ts
  rw [hemit ts]
  cases ts.getLast? with
  | none => simp
  | some t =>
    by_cases hstr : pyStrip t = "" <;> simp [hstr]
